import Mathlib

/-!
Verification development for the vigilante relayer core
(`submitter/ckpt_relayer.go` and the reporter's block-event handlers).

The Go code is shallowly embedded:

* `btcjson.ListUnspentResult` becomes `ListUnspentResult`; the `float64`
  BTC amount is modelled as an exact rational (`ℚ`), which is faithful to
  the comparisons the code performs on finite, non-NaN wallet amounts.
* `sort.Slice` is modelled by `goInsertionSort`, the insertion sort that
  Go's standard sort performs on short slices (the swap-to-the-left inner
  loop is reproduced exactly, via a reversed-prefix accumulator); on a
  comparator that is a strict weak order this also agrees with Go's sort
  on longer slices up to order of ties.
* external library and RPC calls (hash parsing, script building, wallet
  RPCs, broadcasting) are fields of explicit environment structures, so
  every theorem quantifies over their outcomes.
* handlers that perform effects are modelled as pure functions returning
  the list of effect actions they perform, in order.
-/

/-- Satoshis per bitcoin (`btcutil.SatoshiPerBitcoin`). -/
def satoshiPerBitcoin : ℤ := 100000000

/-- Embedding of `btcjson.ListUnspentResult` (the fields the relayer reads).
`Amount` is the `float64` BTC value, modelled as an exact rational. -/
structure ListUnspentResult where
  TxID : String
  Vout : Nat
  Address : String
  ScriptPubKey : String
  Amount : ℚ
  Confirmations : Int
  Spendable : Bool
deriving DecidableEq, Repr

/-- The comparator closure passed to `sort.Slice` in `getTopTwoUTXOs`:
`utxos[i].Spendable && utxos[i].Amount > utxos[j].Amount`. -/
def utxoLess (u v : ListUnspentResult) : Bool :=
  u.Spendable && decide (v.Amount < u.Amount)

/-- One step of Go's insertion sort inner loop
(`for j := i; j > a && less(j, j-1); j-- { swap(j, j-1) }`):
the new element `x` bubbles left past the processed prefix while `less x y`
holds against its left neighbour `y`.  The prefix is carried reversed
(head = rightmost processed element). -/
def goInsertRev (less : α → α → Bool) (x : α) : List α → List α
  | [] => [x]
  | y :: ys => if less x y then y :: goInsertRev less x ys else x :: y :: ys

/-- Outer loop of Go's insertion sort, carrying the processed prefix
reversed. -/
def goInsertionSortAux (less : α → α → Bool) (rev : List α) : List α → List α
  | [] => rev.reverse
  | x :: xs => goInsertionSortAux less (goInsertRev less x rev) xs

/-- Go's `sort.Slice` as the relayer exercises it: for the short slices on
which Go runs plain insertion sort this is exact; on a strict-weak-order
comparator it agrees with Go's sort up to the order of ties. -/
def goInsertionSort (less : α → α → Bool) (l : List α) : List α :=
  goInsertionSortAux less [] l

/-- Error string of `getTopTwoUTXOs` when fewer than two UTXOs exist. -/
def errInsufficientUTXOs : String := "insufficient unspent transactions"

/-- Error string of `getTopTwoUTXOs` when a selected amount is below the fee. -/
def errInsufficientFees : String := "insufficient fees"

/-- Embedding of `(*Submitter).getTopTwoUTXOs`, given the already-fetched
unspent list and the configured fee converted to BTC
(`s.btcWallet.Cfg.TxFee.ToBTC()`).  The final catch-all match arm is
unreachable (the sort preserves length ≥ 2). -/
def getTopTwoUTXOs (utxos : List ListUnspentResult) (txfee : ℚ) :
    Except String (ListUnspentResult × ListUnspentResult) :=
  if utxos.length < 2 then
    .error errInsufficientUTXOs
  else
    match goInsertionSort utxoLess utxos with
    | u0 :: u1 :: _ =>
      if u0.Amount < txfee then .error errInsufficientFees
      else if u1.Amount < txfee then .error errInsufficientFees
      else .ok (u0, u1)
    | _ => .error errInsufficientUTXOs

/-- The fields of the submitter's BTC wallet handle that
`getTopTwoUTXOs` could observe: the result of `ListUnspent()` and the
configuration (`TxFee` in satoshis, plus the credential fields the
selection does not read). -/
structure BTCWallet where
  listUnspentRes : Except String (List ListUnspentResult)
  txFee : ℤ
  walletPassword : String
  walletLockTime : ℤ

/-- `btcutil.Amount.ToBTC()`: satoshis to BTC. -/
def amountToBTC (sat : ℤ) : ℚ := (sat : ℚ) / (satoshiPerBitcoin : ℚ)

/-- `getTopTwoUTXOs` at the wallet level: fetch `ListUnspent()` (propagating
its error) and run the selection with `TxFee.ToBTC()`. -/
def submitterGetTopTwoUTXOs (w : BTCWallet) :
    Except String (ListUnspentResult × ListUnspentResult) :=
  match w.listUnspentRes with
  | .error e => .error e
  | .ok utxos => getTopTwoUTXOs utxos (amountToBTC w.txFee)

/-- Embedding of `wire.OutPoint`: a 32-byte hash (abstracted to `ℤ`) and a
32-bit output index. -/
structure OutPoint where
  hash : ℤ
  index : Nat
deriving DecidableEq, Repr

/-- Embedding of `wire.TxIn`: previous outpoint plus signature script bytes. -/
structure TxIn where
  previousOutPoint : OutPoint
  signatureScriptBytes : List Nat
deriving DecidableEq, Repr

/-- Embedding of `wire.TxOut`: `int64` value in satoshis plus script bytes. -/
structure TxOut where
  value : ℤ
  pkScript : List Nat
deriving DecidableEq, Repr

/-- Embedding of `wire.MsgTx` (the fields `buildTxWithData` populates). -/
structure MsgTx where
  version : ℤ
  txIn : List TxIn
  txOut : List TxOut
deriving DecidableEq, Repr

/-- `btcutil.NewAmount` on a finite `float64` BTC value: multiply by 1e8 and
round half away from zero, truncating toward zero on conversion to `int64`
(the NaN/Inf error path has no counterpart for exact rationals, so the
result is always `some`). -/
def newAmount (q : ℚ) : Option ℤ :=
  some (if q < 0
        then -⌊(-q) * (satoshiPerBitcoin : ℚ) + 1/2⌋
        else ⌊q * (satoshiPerBitcoin : ℚ) + 1/2⌋)

/-- Outcomes of the external library and wallet-RPC calls that
`buildTxWithData` makes, one field per call site, in call order:
`chainhash.NewHashFromStr`, the `OP_RETURN` script builder,
`GetRawChangeAddress`, `hex.DecodeString`, `txscript.PayToAddrScript`,
`WalletPassphrase`, `btcutil.DecodeAddress` (whose error the Go code
ignores, so it is total here), `DumpPrivKey`, `txscript.SignatureScript`
and `Serialize`. -/
structure BuildEnv where
  newHashFromStr : String → Option ℤ
  opReturnScript : List Nat → Option (List Nat)
  getRawChangeAddress : Option String
  hexDecodeString : String → Option (List Nat)
  payToAddrScript : String → Option (List Nat)
  walletPassphraseOk : Bool
  decodeAddress : String → String
  dumpPrivKey : String → Option String
  signatureScript : MsgTx → List Nat → String → Option (List Nat)
  serializeOk : MsgTx → Bool

/-- Embedding of `(*Submitter).buildTxWithData`, with `txFee` the configured
`s.btcWallet.Cfg.TxFee` in satoshis.  Mirrors the Go control flow: every
fallible call short-circuits to `none`; the input outpoint is built as
`wire.NewOutPoint(hash, 0)` from the UTXO's `TxID` with literal index `0`
(the UTXO's own `Vout` is never read); output 0 is the zero-value
`OP_RETURN` output; output 1 pays `int64(amount - TxFee)` to the change
script, with no check that the subtraction stays non-negative. -/
def buildTxWithData (env : BuildEnv) (txFee : ℤ) (utxo : ListUnspentResult)
    (data : List Nat) : Option MsgTx :=
  match env.newHashFromStr utxo.TxID with
  | none => none
  | some hash =>
    let outPoint : OutPoint := ⟨hash, 0⟩
    let txIn : TxIn := ⟨outPoint, []⟩
    match env.opReturnScript data with
    | none => none
    | some dataScript =>
      match env.getRawChangeAddress with
      | none => none
      | some changeAddr =>
        match env.hexDecodeString utxo.ScriptPubKey with
        | none => none
        | some prevPKScript =>
          match env.payToAddrScript changeAddr with
          | none => none
          | some changeScript =>
            match newAmount utxo.Amount with
            | none => none
            | some amount =>
              let tx : MsgTx :=
                { version := 1
                  txIn := [txIn]
                  txOut := [⟨0, dataScript⟩, ⟨amount - txFee, changeScript⟩] }
              if env.walletPassphraseOk then
                let prevAddr := env.decodeAddress utxo.Address
                match env.dumpPrivKey prevAddr with
                | none => none
                | some wif =>
                  match env.signatureScript tx prevPKScript wif with
                  | none => none
                  | some sig =>
                    let signedTx : MsgTx := { tx with txIn := [⟨outPoint, sig⟩] }
                    if env.serializeOk signedTx then some signedTx else none
              else none

/-- Checkpoint lifecycle statuses (`ckpttypes.CheckpointStatus`). -/
inductive CkptStatus where
  | accumulating
  | sealed
  | submitted
  | confirmed
  | finalized
deriving DecidableEq, Repr

/-- Embedding of `ckpttypes.RawCheckpoint` (the fields the relayer reads). -/
structure RawCheckpoint where
  EpochNum : Nat
  LastCommitHash : List Nat
  Bitmap : List Nat
  BlsMultiSig : List Nat
deriving DecidableEq, Repr

/-- Embedding of `ckpttypes.RawCheckpointWithMeta`. -/
structure RawCheckpointWithMeta where
  Ckpt : RawCheckpoint
  Status : CkptStatus
deriving DecidableEq, Repr

/-- Trace events of `ConvertCkptToTwoTxAndSubmit`: building and broadcasting
transaction `n` (1 or 2).  These are the only transaction-level effects the
Go function performs: there is no rollback, cancellation, or rebroadcast
call anywhere in it, so no such event exists. -/
inductive CEvent where
  | built (n : Nat) (tx : MsgTx)
  | sent (n : Nat) (tx : MsgTx)
deriving DecidableEq, Repr

/-- `true` exactly on a broadcast event for tx1. -/
def isSent1 : CEvent → Bool
  | .sent 1 _ => true
  | _ => false

/-- `true` exactly on a broadcast event for tx2. -/
def isSent2 : CEvent → Bool
  | .sent 2 _ => true
  | _ => false

/-- The submitter state and external-call outcomes that
`ConvertCkptToTwoTxAndSubmit` depends on: the result of
`ckpt.Ckpt.LastCommitHash.Marshal()`, of
`btctxformatter.EncodeCheckpointData` (the two data chunks), the wallet
(for `getTopTwoUTXOs`), the build environment, and the result of
`SendRawTransaction` for each transaction handed to `sendTxToBTC`. -/
structure Submitter where
  marshalRes : Except String (List Nat)
  encodeRes : Except String (List Nat × List Nat)
  wallet : BTCWallet
  buildEnv : BuildEnv
  sendRes : MsgTx → Except String ℤ

/-- Embedding of `(*Submitter).ConvertCkptToTwoTxAndSubmit`, returning the
Go function's result together with the ordered trace of build/broadcast
events it performed.  The steps run strictly sequentially exactly as in the
Go code: marshal, encode, select the two UTXOs, build tx1, broadcast tx1,
build tx2, broadcast tx2; every error returns immediately, leaving the
trace of the effects already performed. -/
def convertCkptToTwoTxAndSubmit (s : Submitter) :
    Except String Unit × List CEvent :=
  match s.marshalRes with
  | .error e => (.error e, [])
  | .ok _lch =>
    match s.encodeRes with
    | .error e => (.error e, [])
    | .ok (data1, data2) =>
      match submitterGetTopTwoUTXOs s.wallet with
      | .error e => (.error e, [])
      | .ok (utxo1, utxo2) =>
        match buildTxWithData s.buildEnv s.wallet.txFee utxo1 data1 with
        | none => (.error "failed to build tx1", [])
        | some tx1 =>
          match s.sendRes tx1 with
          | .error e => (.error e, [.built 1 tx1])
          | .ok _txid1 =>
            match buildTxWithData s.buildEnv s.wallet.txFee utxo2 data2 with
            | none => (.error "failed to build tx2", [.built 1 tx1, .sent 1 tx1])
            | some tx2 =>
              match s.sendRes tx2 with
              | .error e => (.error e, [.built 1 tx1, .sent 1 tx1, .built 2 tx2])
              | .ok _txid2 =>
                (.ok (), [.built 1 tx1, .sent 1 tx1, .built 2 tx2, .sent 2 tx2])

/-- Messages the sealed-checkpoint worker loop can receive: a checkpoint on
`s.rawCkptChan`, or the quit signal. -/
inductive HandlerMsg where
  | ckptMsg (c : RawCheckpointWithMeta)
  | quitMsg
deriving DecidableEq, Repr

/-- Observable actions of one iteration of `sealedCkptHandler`: the
"sealed checkpoint found" info log, the call into the submission pipeline
(`s.SubmitCkpt`), and the error log on a failed submission. -/
inductive WAction where
  | logInfoFound (epoch : Nat)
  | submitCall (c : RawCheckpointWithMeta)
  | logSubmitErr (epoch : Nat)
deriving DecidableEq, Repr

/-- Whether the worker loop continues to its next `select` iteration or
returns. -/
inductive LoopCtl where
  | continueLoop
  | exitLoop
deriving DecidableEq, Repr

/-- One iteration of the `for`/`select` loop of
`(*Submitter).sealedCkptHandler`, parametrised by the outcome of
`s.SubmitCkpt` on each checkpoint.  Returns the ordered actions performed
and whether the loop continues.  A checkpoint whose status is not `Sealed`
is ignored; a failed submission is logged; only the quit signal exits. -/
def sealedCkptHandlerStep (submitRes : RawCheckpointWithMeta → Except String Unit) :
    HandlerMsg → List WAction × LoopCtl
  | .quitMsg => ([], .exitLoop)
  | .ckptMsg c =>
    if c.Status = CkptStatus.sealed then
      match submitRes c with
      | .ok _ => ([.logInfoFound c.Ckpt.EpochNum, .submitCall c], .continueLoop)
      | .error _ =>
        ([.logInfoFound c.Ckpt.EpochNum, .submitCall c, .logSubmitErr c.Ckpt.EpochNum],
         .continueLoop)
    else ([], .continueLoop)

/-- Embedding of a base-chain block header: the previous-block hash field
(`wire.BlockHeader.PrevBlock`) plus the remaining header bytes, abstracted.
The header's own hash (`BlockHash()`) is an arbitrary pure function of the
header, passed to the handlers as a parameter. -/
structure BlockHeader where
  prevBlock : ℤ
  rest : ℤ
deriving DecidableEq, Repr

/-- Embedding of `types.IndexedBlock` (height and header; the transaction
set plays no role in the dispatch logic). -/
structure IndexedBlock where
  blockHeight : ℤ
  header : BlockHeader
deriving DecidableEq, Repr

/-- Embedding of `types.BlockEvent`. -/
inductive BlockEventType where
  | blockConnected
  | blockDisconnected
deriving DecidableEq, Repr

/-- Embedding of `types.BlockEvent`: event type, height and header. -/
structure BlockEvent where
  eventType : BlockEventType
  eventHeight : ℤ
  header : BlockHeader
deriving DecidableEq, Repr

/-- Observable actions of the reporter's block handlers, in the order the
Go code performs them: a (re)bootstrap with its `force` flag, adding a
block to the cache, forwarding blocks to header extraction
(`processHeaders`) and to checkpoint extraction (`processCheckpoints`),
removing the cache tip, and a `panic`. -/
inductive RAction where
  | bootstrap (force : Bool)
  | cacheAdd (b : IndexedBlock)
  | processHeaders (bs : List IndexedBlock)
  | processCheckpoints (bs : List IndexedBlock)
  | removeLast
  | panicAct
deriving DecidableEq, Repr

/-- Embedding of `(*Reporter).handleConnectedBlocks`, parametrised by the
header-hash function `bh` (`BlockHash()`), the outcome of
`r.btcClient.GetBlockByHash` (indexed block plus the fetched
`mBlock.Header`), and the cache tip observed by `r.btcCache.Tip()`
(`none` = empty cache, per the cache contract of the spec).  Returns the
ordered actions performed: panic on a failed fetch; `Bootstrap(true)` when
the cache is empty or the fetched block's `PrevBlock` differs from the
tip's hash; otherwise add the block and forward it to header extraction
then checkpoint extraction. -/
def handleConnectedBlocks (bh : BlockHeader → ℤ)
    (getBlockByHash : ℤ → Option (IndexedBlock × BlockHeader))
    (tipRes : Option IndexedBlock) (event : BlockEvent) : List RAction :=
  match getBlockByHash (bh event.header) with
  | none => [.panicAct]
  | some (ib, mHeader) =>
    match tipRes with
    | none => [.bootstrap true]
    | some cacheTip =>
      if mHeader.prevBlock ≠ bh cacheTip.header then [.bootstrap true]
      else [.cacheAdd ib, .processHeaders [ib], .processCheckpoints [ib]]

/-- Modelled from the spec: `BlockCache.RemoveLast()` (§4.1), whose source
is not part of the reviewed files — "removes the current tip. Fails with
`EmptyCache` if the cache has no elements."  The cache is an oldest-first
list, so the tip is the last element. -/
def btcCacheRemoveLast (cache : List IndexedBlock) :
    Except String (List IndexedBlock) :=
  if cache.isEmpty then .error "empty cache" else .ok cache.dropLast

/-- Modelled from the spec: `BlockCache.Tip()` (§4.1) — "returns the last
element or a defined empty sentinel" — on an oldest-first list. -/
def btcCacheTip (cache : List IndexedBlock) : Option IndexedBlock :=
  cache.getLast?

/-- Embedding of `(*Reporter).handleDisconnectedBlocks`, parametrised by
the header-hash function, the current cache contents, the tip observed by
the `Tip()` call and the outcome of the later `RemoveLast()` call (two
separate calls in the Go code, so modelled as separate inputs; the spec
itself notes a failing `RemoveLast` can only arise from a race between
them).  Returns the actions performed and the cache contents this handler
leaves behind: `Bootstrap(true)` and an untouched cache when the cache is
empty or the event's hash differs from the tip's hash; otherwise the
removal, whose failure is logged, re-bootstrapped and surfaced by panic. -/
def handleDisconnectedBlocks (bh : BlockHeader → ℤ)
    (cache : List IndexedBlock) (tipRes : Option IndexedBlock)
    (removeRes : Except String (List IndexedBlock)) (event : BlockEvent) :
    List RAction × List IndexedBlock :=
  match tipRes with
  | none => ([.bootstrap true], cache)
  | some cacheTip =>
    if bh event.header ≠ bh cacheTip.header then ([.bootstrap true], cache)
    else
      match removeRes with
      | .error _ => ([.bootstrap true, .panicAct], cache)
      | .ok cacheAfter => ([.removeLast], cacheAfter)

/-- The sequential composition of `Tip()` and `RemoveLast()` on the same
cache state, as `handleDisconnectedBlocks` issues them when no concurrent
mutation intervenes. -/
def handleDisconnectedBlocksSeq (bh : BlockHeader → ℤ)
    (cache : List IndexedBlock) (event : BlockEvent) :
    List RAction × List IndexedBlock :=
  handleDisconnectedBlocks bh cache (btcCacheTip cache) (btcCacheRemoveLast cache) event

/-- Concrete non-spendable UTXO with a large amount (100 BTC). -/
def cexNonSpendableUTXO : ListUnspentResult :=
  { TxID := "aa", Vout := 0, Address := "addr1", ScriptPubKey := "51",
    Amount := 100, Confirmations := 3, Spendable := false }

/-- Concrete spendable UTXO with a smaller amount (50 BTC). -/
def cexSpendableUTXO : ListUnspentResult :=
  { TxID := "bb", Vout := 1, Address := "addr2", ScriptPubKey := "52",
    Amount := 50, Confirmations := 3, Spendable := true }

/-- Concrete spendable UTXO worth 100 BTC. -/
def exSpendable100 : ListUnspentResult :=
  { TxID := "cc", Vout := 0, Address := "addr3", ScriptPubKey := "53",
    Amount := 100, Confirmations := 3, Spendable := true }

/-- Concrete spendable UTXO worth a single satoshi. -/
def cexTinyUTXO : ListUnspentResult :=
  { TxID := "dd", Vout := 0, Address := "addr4", ScriptPubKey := "54",
    Amount := 1 / 100000000, Confirmations := 3, Spendable := true }

/-- A build environment in which every external call succeeds. -/
def exBuildEnvAllOk : BuildEnv :=
  { newHashFromStr := fun _ => some 7
    opReturnScript := fun data => some (106 :: data)
    getRawChangeAddress := some "changeAddr"
    hexDecodeString := fun _ => some [81]
    payToAddrScript := fun _ => some [118]
    walletPassphraseOk := true
    decodeAddress := fun a => a
    dumpPrivKey := fun _ => some "wifKey"
    signatureScript := fun _ _ _ => some [48]
    serializeOk := fun _ => true }

/-- The transaction `buildTxWithData` produces from `exBuildEnvAllOk`, a fee
of 100 satoshis, `cexTinyUTXO` (1 satoshi) and empty data: its change
output carries the negative value 1 - 100 = -99. -/
def cexNegChangeTx : MsgTx :=
  { version := 1
    txIn := [⟨⟨7, 0⟩, [48]⟩]
    txOut := [⟨0, [106]⟩, ⟨-99, [118]⟩] }

/-- Wallet whose unspent list holds two comfortably funded spendable UTXOs
and whose flat fee is 1 satoshi. -/
def exWallet : BTCWallet :=
  { listUnspentRes := .ok [cexSpendableUTXO, exSpendable100]
    txFee := 1
    walletPassword := "pw"
    walletLockTime := 10 }

/-- `exWallet` with a different password and lock time but the same unspent
list and fee. -/
def exWalletOther : BTCWallet :=
  { listUnspentRes := .ok [cexSpendableUTXO, exSpendable100]
    txFee := 1
    walletPassword := "other-pw"
    walletLockTime := 99 }

/-- A submitter whose broadcast succeeds for tx1 but fails for tx2 (the
transaction whose `OP_RETURN` output embeds the second data chunk `[2]`). -/
def exSubmitterTx2Fails : Submitter :=
  { marshalRes := .ok [0]
    encodeRes := .ok ([1], [2])
    wallet := exWallet
    buildEnv := exBuildEnvAllOk
    sendRes := fun tx =>
      if tx.txOut.map TxOut.pkScript = [[106, 2], [118]]
      then .error "tx2 broadcast failed" else .ok 5 }

/-- The concrete header-hash function used by reporter witnesses. -/
def exBlockHash (h : BlockHeader) : ℤ := h.rest

/-- Cache-tip block for the connected-block witness (hash 5). -/
def exTipBlock : IndexedBlock := ⟨110, ⟨0, 5⟩⟩

/-- Block at height 111 whose header's previous hash is the tip's hash. -/
def exNextBlock : IndexedBlock := ⟨111, ⟨5, 10⟩⟩

/-- Fetch function that knows only the height-111 block (hash 10). -/
def exGetBlockByHash (h : ℤ) : Option (IndexedBlock × BlockHeader) :=
  if h = 10 then some (exNextBlock, exNextBlock.header) else none

/-- Connected-block event for `exNextBlock`. -/
def exConnectedEvent : BlockEvent :=
  ⟨.blockConnected, 111, exNextBlock.header⟩

/-- Disconnected-block event for `exNextBlock`. -/
def exDisconnectedEvent : BlockEvent :=
  ⟨.blockDisconnected, 111, exNextBlock.header⟩

/-- Two-element cache whose tip is `exNextBlock`. -/
def exCache : List IndexedBlock := [exTipBlock, exNextBlock]

/-- A sealed checkpoint for epoch 7. -/
def exCkptSealed : RawCheckpointWithMeta :=
  { Ckpt := { EpochNum := 7, LastCommitHash := [3], Bitmap := [1], BlsMultiSig := [9] }
    Status := .sealed }

/-- The same checkpoint still in `Accumulating` status. -/
def exCkptAccumulating : RawCheckpointWithMeta :=
  { Ckpt := { EpochNum := 7, LastCommitHash := [3], Bitmap := [1], BlsMultiSig := [9] }
    Status := .accumulating }

/-- A submission outcome that fails on every checkpoint. -/
def exSubmitAlwaysFails (_ : RawCheckpointWithMeta) : Except String Unit :=
  .error "submission failed"

/-- Ascending comparison of UTXO amounts. -/
def amountLE (u v : ListUnspentResult) : Prop := u.Amount ≤ v.Amount

/-- Descending comparison of UTXO amounts. -/
def amountGE (u v : ListUnspentResult) : Prop := v.Amount ≤ u.Amount

/-- First transaction `exSubmitterTx2Fails` builds (data chunk `[1]`,
funded by `exSpendable100`, fee 1 satoshi). -/
def exTx1 : MsgTx :=
  { version := 1, txIn := [⟨⟨7, 0⟩, [48]⟩]
    txOut := [⟨0, [106, 1]⟩, ⟨9999999999, [118]⟩] }

/-- Second transaction `exSubmitterTx2Fails` builds (data chunk `[2]`,
funded by `cexSpendableUTXO`, fee 1 satoshi). -/
def exTx2 : MsgTx :=
  { version := 1, txIn := [⟨⟨7, 0⟩, [48]⟩]
    txOut := [⟨0, [106, 2]⟩, ⟨4999999999, [118]⟩] }

/-- Inserting an element with Go's inner loop permutes: the result holds
exactly the new element plus the old prefix. -/
theorem goInsertRev_perm (less : α → α → Bool) (x : α) (r : List α) :
    List.Perm (goInsertRev less x r) (x :: r) := by
  induction r with
  | nil => simp [goInsertRev]
  | cons y ys ih =>
    simp only [goInsertRev]
    by_cases h : less x y = true
    · rw [if_pos h]
      exact (ih.cons y).trans (List.Perm.swap x y ys)
    · rw [if_neg h]

/-- Go's insertion sort permutes the reversed prefix plus the remaining
input. -/
theorem goInsertionSortAux_perm (less : α → α → Bool) (l : List α) :
    ∀ rev : List α, List.Perm (goInsertionSortAux less rev l) (rev.reverse ++ l) := by
  induction l with
  | nil => intro rev; simp [goInsertionSortAux]
  | cons x xs ih =>
    intro rev
    simp only [goInsertionSortAux]
    refine (ih (goInsertRev less x rev)).trans ?_
    have h1 : List.Perm ((goInsertRev less x rev).reverse ++ xs)
        (goInsertRev less x rev ++ xs) := (List.reverse_perm _).append_right xs
    have h2 : List.Perm (goInsertRev less x rev ++ xs) ((x :: rev) ++ xs) :=
      (goInsertRev_perm less x rev).append_right xs
    have h3 : List.Perm ((x :: rev) ++ xs) (x :: (rev.reverse ++ xs)) :=
      ((List.reverse_perm rev).symm.append_right xs).cons x
    have h4 : List.Perm (x :: (rev.reverse ++ xs)) (rev.reverse ++ x :: xs) :=
      List.perm_middle.symm
    exact ((h1.trans h2).trans h3).trans h4

/-- `goInsertionSort` returns a permutation of its input. -/
theorem goInsertionSort_perm (less : α → α → Bool) (l : List α) :
    List.Perm (goInsertionSort less l) l := by
  simpa [goInsertionSort] using goInsertionSortAux_perm less l []

/-- Inserting a spendable element into an amount-ascending reversed prefix
with the relayer's comparator keeps it amount-ascending. -/
theorem goInsertRev_sorted_amountLE (x : ListUnspentResult)
    (hx : x.Spendable = true) :
    ∀ r : List ListUnspentResult, List.Sorted amountLE r →
      List.Sorted amountLE (goInsertRev utxoLess x r) := by
  intro r
  induction r with
  | nil => intro _; simp [goInsertRev]
  | cons y ys ih =>
    intro hs
    rw [List.sorted_cons] at hs
    obtain ⟨hy, hys⟩ := hs
    simp only [goInsertRev]
    by_cases h : utxoLess x y = true
    · rw [if_pos h]
      rw [List.sorted_cons]
      refine ⟨?_, ih hys⟩
      intro b hb
      rw [(goInsertRev_perm utxoLess x ys).mem_iff] at hb
      rcases List.mem_cons.mp hb with hbx | hb
      · rw [hbx]
        have hlt : y.Amount < x.Amount := by simpa [utxoLess, hx] using h
        exact le_of_lt hlt
      · exact hy b hb
    · have hle : x.Amount ≤ y.Amount := by
        rw [utxoLess, hx, Bool.true_and] at h
        exact le_of_not_lt (by simpa using h)
      rw [if_neg h]
      rw [List.sorted_cons]
      refine ⟨?_, ?_⟩
      · intro b hb
        rcases List.mem_cons.mp hb with hby | hb
        · rw [hby]; exact hle
        · exact le_trans hle (hy b hb)
      · rw [List.sorted_cons]; exact ⟨hy, hys⟩

/-- If every remaining element is spendable and the reversed prefix is
amount-ascending, Go's insertion sort with the relayer's comparator yields
an amount-descending list. -/
theorem goInsertionSortAux_sorted (l : List ListUnspentResult) :
    ∀ rev, (∀ u ∈ l, u.Spendable = true) → List.Sorted amountLE rev →
      List.Sorted amountGE (goInsertionSortAux utxoLess rev l) := by
  induction l with
  | nil =>
    intro rev _ hrev
    simp only [goInsertionSortAux]
    rw [List.Sorted, List.pairwise_reverse]
    exact hrev
  | cons x xs ih =>
    intro rev hl hrev
    simp only [goInsertionSortAux]
    exact ih (goInsertRev utxoLess x rev)
      (fun u hu => hl u (List.mem_cons_of_mem x hu))
      (goInsertRev_sorted_amountLE x (hl x (List.mem_cons_self x xs)) rev hrev)

/-- On an all-spendable list the relayer's sort is amount-descending. -/
theorem goInsertionSort_sorted_allSpendable (l : List ListUnspentResult)
    (hl : ∀ u ∈ l, u.Spendable = true) :
    List.Sorted amountGE (goInsertionSort utxoLess l) :=
  goInsertionSortAux_sorted l [] hl (by simp)

/-- Unfolding `getTopTwoUTXOs` through the result of the sort: once the
sorted list is known to have at least two elements, the selection is the
two fee checks on its first two entries. -/
theorem getTopTwoUTXOs_eq_of_sorted (l : List ListUnspentResult) (fee : ℚ)
    (u0 u1 : ListUnspentResult) (rest : List ListUnspentResult)
    (hs : goInsertionSort utxoLess l = u0 :: u1 :: rest) :
    getTopTwoUTXOs l fee =
      if u0.Amount < fee then .error errInsufficientFees
      else if u1.Amount < fee then .error errInsufficientFees
      else .ok (u0, u1) := by
  have hlen : (goInsertionSort utxoLess l).length = l.length :=
    (goInsertionSort_perm utxoLess l).length_eq
  have h2 : ¬ l.length < 2 := by rw [hs] at hlen; simp at hlen; omega
  unfold getTopTwoUTXOs
  rw [if_neg h2, hs]

/-- Claim C1 (corrected): the claim as stated is false.  On the two-entry
list holding a non-spendable 100 BTC UTXO followed by a spendable 50 BTC
one, `getTopTwoUTXOs` returns the non-spendable entry ranked first: the
comparator `utxos[i].Spendable && utxos[i].Amount > utxos[j].Amount` never
moves a non-spendable entry down, so spendable outputs do not rank before
non-spendable ones. -/
theorem getTopTwoUTXOs_nonspendable_ranked_first :
    getTopTwoUTXOs [cexNonSpendableUTXO, cexSpendableUTXO] 1 =
      .ok (cexNonSpendableUTXO, cexSpendableUTXO) ∧
    cexNonSpendableUTXO.Spendable = false ∧
    cexSpendableUTXO.Spendable = true :=
  ⟨rfl, rfl, rfl⟩

/-- Claim C1 (amended): `getTopTwoUTXOs` returns the first two elements of
the wallet list as permuted by Go's sort under the comparator
`i.Spendable && i.Amount > j.Amount`.  When every entry is spendable this
is a permutation of the list sorted by amount descending and the selection
returns its first two elements; a non-spendable entry, however, is never
moved down by the comparator, so spendable entries do not in general
precede non-spendable ones. -/
theorem getTopTwoUTXOs_allSpendable_returns_top_two
    (l : List ListUnspentResult) (fee : ℚ)
    (hsp : ∀ u ∈ l, u.Spendable = true) (h2 : 2 ≤ l.length) :
    ∃ u0 u1 rest, goInsertionSort utxoLess l = u0 :: u1 :: rest ∧
      List.Sorted amountGE (u0 :: u1 :: rest) ∧
      List.Perm (u0 :: u1 :: rest) l ∧
      (¬ u0.Amount < fee → ¬ u1.Amount < fee →
        getTopTwoUTXOs l fee = .ok (u0, u1)) := by
  have hperm := goInsertionSort_perm utxoLess l
  have hlen : (goInsertionSort utxoLess l).length = l.length := hperm.length_eq
  obtain ⟨u0, u1, rest, hs⟩ :
      ∃ u0 u1 rest, goInsertionSort utxoLess l = u0 :: u1 :: rest := by
    cases hsort : goInsertionSort utxoLess l with
    | nil => rw [hsort] at hlen; simp at hlen; omega
    | cons a t =>
      cases t with
      | nil => rw [hsort] at hlen; simp at hlen; omega
      | cons b t2 => exact ⟨a, b, t2, rfl⟩
  refine ⟨u0, u1, rest, hs, ?_, ?_, ?_⟩
  · rw [← hs]; exact goInsertionSort_sorted_allSpendable l hsp
  · rw [← hs]; exact hperm
  · intro h0 h1
    rw [getTopTwoUTXOs_eq_of_sorted l fee u0 u1 rest hs, if_neg h0, if_neg h1]

/-- Witness for the amended C1 theorem on a concrete all-spendable list. -/
theorem getTopTwoUTXOs_allSpendable_returns_top_two_witness :
    ∃ u0 u1 rest,
      goInsertionSort utxoLess [cexSpendableUTXO, exSpendable100] =
        u0 :: u1 :: rest ∧
      List.Sorted amountGE (u0 :: u1 :: rest) ∧
      List.Perm (u0 :: u1 :: rest) [cexSpendableUTXO, exSpendable100] ∧
      (¬ u0.Amount < 1 → ¬ u1.Amount < 1 →
        getTopTwoUTXOs [cexSpendableUTXO, exSpendable100] 1 = .ok (u0, u1)) :=
  getTopTwoUTXOs_allSpendable_returns_top_two
    [cexSpendableUTXO, exSpendable100] 1 (by decide) (by decide)

/-- Claim C4: `getTopTwoUTXOs` fails with the insufficient-UTXOs error
exactly on lists shorter than two; on longer lists the sorted list has at
least two entries, the selection fails with the insufficient-fees error
exactly when the first or second ranked amount is below the fee, and
otherwise returns the two highest-ranked entries without error. -/
theorem getTopTwoUTXOs_error_conditions (l : List ListUnspentResult) (fee : ℚ) :
    (l.length < 2 → getTopTwoUTXOs l fee = .error errInsufficientUTXOs) ∧
    (2 ≤ l.length →
      ∃ u0 u1 rest, goInsertionSort utxoLess l = u0 :: u1 :: rest) ∧
    (∀ u0 u1 rest, goInsertionSort utxoLess l = u0 :: u1 :: rest →
      ((u0.Amount < fee ∨ u1.Amount < fee) →
        getTopTwoUTXOs l fee = .error errInsufficientFees) ∧
      (¬ u0.Amount < fee → ¬ u1.Amount < fee →
        getTopTwoUTXOs l fee = .ok (u0, u1))) := by
  have hlen : (goInsertionSort utxoLess l).length = l.length :=
    (goInsertionSort_perm utxoLess l).length_eq
  refine ⟨?_, ?_, ?_⟩
  · intro h
    unfold getTopTwoUTXOs
    rw [if_pos h]
  · intro h2
    cases hsort : goInsertionSort utxoLess l with
    | nil => rw [hsort] at hlen; simp at hlen; omega
    | cons a t =>
      cases t with
      | nil => rw [hsort] at hlen; simp at hlen; omega
      | cons b t2 => exact ⟨a, b, t2, rfl⟩
  · intro u0 u1 rest hs
    constructor
    · intro hor
      rw [getTopTwoUTXOs_eq_of_sorted l fee u0 u1 rest hs]
      by_cases h0 : u0.Amount < fee
      · rw [if_pos h0]
      · rw [if_neg h0]
        rcases hor with h0' | h1
        · exact absurd h0' h0
        · rw [if_pos h1]
    · intro h0 h1
      rw [getTopTwoUTXOs_eq_of_sorted l fee u0 u1 rest hs, if_neg h0, if_neg h1]

/-- Witness for C4 on a concrete two-entry list: no error, and the pair is
returned in rank order. -/
theorem getTopTwoUTXOs_error_conditions_witness :
    getTopTwoUTXOs [cexSpendableUTXO, exSpendable100] 1 =
      .ok (exSpendable100, cexSpendableUTXO) :=
  ((getTopTwoUTXOs_error_conditions [cexSpendableUTXO, exSpendable100] 1).2.2
    exSpendable100 cexSpendableUTXO [] rfl).2 (by decide) (by decide)

/-- Claim C5: the UTXO selection is a deterministic function of the
wallet's unspent list and the configured fee alone — two wallet states
agreeing on those (whatever their other fields) yield identical selection
results. -/
theorem submitterGetTopTwoUTXOs_deterministic (w1 w2 : BTCWallet)
    (hlist : w1.listUnspentRes = w2.listUnspentRes)
    (hfee : w1.txFee = w2.txFee) :
    submitterGetTopTwoUTXOs w1 = submitterGetTopTwoUTXOs w2 := by
  unfold submitterGetTopTwoUTXOs
  rw [hlist, hfee]

/-- Witness for C5: two wallets differing in password and lock time select
identically. -/
theorem submitterGetTopTwoUTXOs_deterministic_witness :
    submitterGetTopTwoUTXOs exWallet = submitterGetTopTwoUTXOs exWalletOther :=
  submitterGetTopTwoUTXOs_deterministic exWallet exWalletOther rfl rfl

/-- Claim C2 (corrected): whenever `buildTxWithData` succeeds, the change
output's value is exactly the rounded satoshi amount of the UTXO minus the
configured fee — the function never checks this difference for
non-negativity, so a UTXO below the fee yields a successfully built
transaction with a negative change value rather than a failure. -/
theorem buildTxWithData_change_value (env : BuildEnv) (txFee : ℤ)
    (utxo : ListUnspentResult) (data : List Nat) (tx : MsgTx)
    (h : buildTxWithData env txFee utxo data = some tx) :
    ∃ amt, newAmount utxo.Amount = some amt ∧
      tx.txOut.map TxOut.value = [0, amt - txFee] := by
  unfold buildTxWithData at h
  cases h1 : env.newHashFromStr utxo.TxID with
  | none => simp [h1] at h
  | some hash =>
  simp only [h1] at h
  cases h2 : env.opReturnScript data with
  | none => simp [h2] at h
  | some dataScript =>
  simp only [h2] at h
  cases h3 : env.getRawChangeAddress with
  | none => simp [h3] at h
  | some changeAddr =>
  simp only [h3] at h
  cases h4 : env.hexDecodeString utxo.ScriptPubKey with
  | none => simp [h4] at h
  | some prevPKScript =>
  simp only [h4] at h
  cases h5 : env.payToAddrScript changeAddr with
  | none => simp [h5] at h
  | some changeScript =>
  simp only [h5] at h
  cases h6 : newAmount utxo.Amount with
  | none => simp [newAmount] at h6
  | some amount =>
  simp only [h6] at h
  refine ⟨amount, rfl, ?_⟩
  by_cases h7 : env.walletPassphraseOk
  · simp only [h7, if_true] at h
    cases h8 : env.dumpPrivKey (env.decodeAddress utxo.Address) with
    | none => simp [h8] at h
    | some wif =>
    simp only [h8] at h
    cases h9 : env.signatureScript
        { version := 1, txIn := [⟨⟨hash, 0⟩, []⟩],
          txOut := [⟨0, dataScript⟩, ⟨amount - txFee, changeScript⟩] }
        prevPKScript wif with
    | none => simp [h9] at h
    | some sig =>
    simp only [h9] at h
    by_cases h10 : env.serializeOk
        { version := 1, txIn := [⟨⟨hash, 0⟩, sig⟩],
          txOut := [⟨0, dataScript⟩, ⟨amount - txFee, changeScript⟩] } = true
    · rw [if_pos h10] at h
      obtain rfl := Option.some.inj h
      simp
    · rw [if_neg h10] at h
      exact absurd h (by simp)
  · simp [h7] at h

/-- Witness for the amended C2 theorem at the concrete underfunded build. -/
theorem buildTxWithData_change_value_witness :
    ∃ amt, newAmount cexTinyUTXO.Amount = some amt ∧
      cexNegChangeTx.txOut.map TxOut.value = [0, amt - 100] :=
  buildTxWithData_change_value exBuildEnvAllOk 100 cexTinyUTXO [] cexNegChangeTx
    (by simp [buildTxWithData, exBuildEnvAllOk, cexTinyUTXO, newAmount,
          cexNegChangeTx, satoshiPerBitcoin]
        norm_num)

/-- Claim C2 is false as stated: a UTXO holding 1 satoshi, strictly below
the 100-satoshi fee, still produces a successfully built transaction whose
change output value is the negative number -99 — the build does not fail
on underflow. -/
theorem buildTxWithData_underflow_not_fatal :
    cexTinyUTXO.Amount < amountToBTC 100 ∧
    buildTxWithData exBuildEnvAllOk 100 cexTinyUTXO [] = some cexNegChangeTx ∧
    cexNegChangeTx.txOut.map TxOut.value = [0, -99] := by
  refine ⟨by norm_num [cexTinyUTXO, amountToBTC, satoshiPerBitcoin], ?_, rfl⟩
  simp [buildTxWithData, exBuildEnvAllOk, cexTinyUTXO, newAmount,
    cexNegChangeTx, satoshiPerBitcoin]
  norm_num

/-- Claim C3: the input built by `buildTxWithData` always spends the
outpoint `(hash(utxo.TxID), 0)`: the output index is the literal 0, and
the UTXO's own `Vout` is never read — the build result is identical for
every value of `Vout`. -/
theorem buildTxWithData_spends_index_zero (env : BuildEnv) (txFee : ℤ)
    (utxo : ListUnspentResult) (data : List Nat) :
    (∀ v, buildTxWithData env txFee { utxo with Vout := v } data =
      buildTxWithData env txFee utxo data) ∧
    (∀ tx, buildTxWithData env txFee utxo data = some tx →
      ∃ hsh, env.newHashFromStr utxo.TxID = some hsh ∧
        tx.txIn.map TxIn.previousOutPoint = [⟨hsh, 0⟩]) := by
  constructor
  · intro v
    rfl
  · intro tx h
    unfold buildTxWithData at h
    cases h1 : env.newHashFromStr utxo.TxID with
    | none => simp [h1] at h
    | some hash =>
    simp only [h1] at h
    cases h2 : env.opReturnScript data with
    | none => simp [h2] at h
    | some dataScript =>
    simp only [h2] at h
    cases h3 : env.getRawChangeAddress with
    | none => simp [h3] at h
    | some changeAddr =>
    simp only [h3] at h
    cases h4 : env.hexDecodeString utxo.ScriptPubKey with
    | none => simp [h4] at h
    | some prevPKScript =>
    simp only [h4] at h
    cases h5 : env.payToAddrScript changeAddr with
    | none => simp [h5] at h
    | some changeScript =>
    simp only [h5] at h
    cases h6 : newAmount utxo.Amount with
    | none => simp [newAmount] at h6
    | some amount =>
    simp only [h6] at h
    refine ⟨hash, rfl, ?_⟩
    by_cases h7 : env.walletPassphraseOk
    · simp only [h7, if_true] at h
      cases h8 : env.dumpPrivKey (env.decodeAddress utxo.Address) with
      | none => simp [h8] at h
      | some wif =>
      simp only [h8] at h
      cases h9 : env.signatureScript
          { version := 1, txIn := [⟨⟨hash, 0⟩, []⟩],
            txOut := [⟨0, dataScript⟩, ⟨amount - txFee, changeScript⟩] }
          prevPKScript wif with
      | none => simp [h9] at h
      | some sig =>
      simp only [h9] at h
      by_cases h10 : env.serializeOk
          { version := 1, txIn := [⟨⟨hash, 0⟩, sig⟩],
            txOut := [⟨0, dataScript⟩, ⟨amount - txFee, changeScript⟩] } = true
      · rw [if_pos h10] at h
        obtain rfl := Option.some.inj h
        simp
      · rw [if_neg h10] at h
        exact absurd h (by simp)
    · simp [h7] at h

/-- Witness for C3 at a concrete build: changing `Vout` to 5 leaves the
built transaction unchanged, and its single input has output index 0. -/
theorem buildTxWithData_spends_index_zero_witness :
    buildTxWithData exBuildEnvAllOk 100 { cexTinyUTXO with Vout := 5 } [] =
      buildTxWithData exBuildEnvAllOk 100 cexTinyUTXO [] ∧
    (∃ hsh, exBuildEnvAllOk.newHashFromStr cexTinyUTXO.TxID = some hsh ∧
      cexNegChangeTx.txIn.map TxIn.previousOutPoint = [⟨hsh, 0⟩]) :=
  ⟨(buildTxWithData_spends_index_zero exBuildEnvAllOk 100 cexTinyUTXO []).1 5,
   (buildTxWithData_spends_index_zero exBuildEnvAllOk 100 cexTinyUTXO []).2
     cexNegChangeTx
     (by simp [buildTxWithData, exBuildEnvAllOk, cexTinyUTXO, newAmount,
           cexNegChangeTx, satoshiPerBitcoin]
         norm_num)⟩

/-- Claim C8: in `ConvertCkptToTwoTxAndSubmit` the two transactions are
processed strictly sequentially — whenever tx2 is built, tx1 was already
broadcast earlier in the trace — and there is no atomicity: when tx1 was
broadcast and the procedure ends in an error (a tx2-stage failure), the
error is returned while tx1 remains broadcast exactly once, with no
rebroadcast and no tx2 broadcast (the event vocabulary is exactly the
calls the Go code makes; no rollback or cancellation call exists). -/
theorem convertCkptToTwoTxAndSubmit_sequential_no_rollback (s : Submitter) :
    ((∃ tx, CEvent.built 2 tx ∈ (convertCkptToTwoTxAndSubmit s).2) →
      ∃ t1 rest, (convertCkptToTwoTxAndSubmit s).2 =
        CEvent.built 1 t1 :: CEvent.sent 1 t1 :: rest) ∧
    ((convertCkptToTwoTxAndSubmit s).2.countP isSent1 ≤ 1) ∧
    (∀ t1, CEvent.sent 1 t1 ∈ (convertCkptToTwoTxAndSubmit s).2 →
      ∀ e, (convertCkptToTwoTxAndSubmit s).1 = .error e →
        (convertCkptToTwoTxAndSubmit s).2.countP isSent1 = 1 ∧
        (convertCkptToTwoTxAndSubmit s).2.countP isSent2 = 0) := by
  unfold convertCkptToTwoTxAndSubmit
  cases s.marshalRes with
  | error e => simp
  | ok lch =>
  simp only []
  cases s.encodeRes with
  | error e => simp
  | ok p =>
  obtain ⟨data1, data2⟩ := p
  simp only []
  cases submitterGetTopTwoUTXOs s.wallet with
  | error e => simp
  | ok pu =>
  obtain ⟨utxo1, utxo2⟩ := pu
  simp only []
  cases buildTxWithData s.buildEnv s.wallet.txFee utxo1 data1 with
  | none => simp
  | some tx1 =>
  simp only []
  cases s.sendRes tx1 with
  | error e => simp [isSent1]
  | ok txid1 =>
  simp only []
  cases buildTxWithData s.buildEnv s.wallet.txFee utxo2 data2 with
  | none =>
    simp only []
    refine ⟨?_, ?_, ?_⟩
    · rintro ⟨tx, htx⟩
      simp at htx
    · simp [List.countP, List.countP.go, isSent1]
    · intro t1 hmem e he
      exact ⟨by simp [List.countP, List.countP.go, isSent1],
        by simp [List.countP, List.countP.go, isSent2]⟩
  | some tx2 =>
  simp only []
  cases s.sendRes tx2 with
  | error e =>
    simp only []
    refine ⟨fun _ => ⟨tx1, [.built 2 tx2], rfl⟩, ?_, ?_⟩
    · simp [List.countP, List.countP.go, isSent1]
    · intro t1 hmem e' he
      exact ⟨by simp [List.countP, List.countP.go, isSent1],
        by simp [List.countP, List.countP.go, isSent2]⟩
  | ok txid2 =>
    simp only []
    refine ⟨fun _ => ⟨tx1, [.built 2 tx2, .sent 2 tx2], rfl⟩, ?_, ?_⟩
    · simp [List.countP, List.countP.go, isSent1]
    · intro t1 hmem e he
      simp at he

/-- Witness for C8 on the concrete submitter whose tx2 broadcast fails:
tx1 stays broadcast exactly once and tx2 is never broadcast. -/
theorem convertCkptToTwoTxAndSubmit_sequential_no_rollback_witness :
    (convertCkptToTwoTxAndSubmit exSubmitterTx2Fails).2.countP isSent1 = 1 ∧
    (convertCkptToTwoTxAndSubmit exSubmitterTx2Fails).2.countP isSent2 = 0 := by
  have hc : convertCkptToTwoTxAndSubmit exSubmitterTx2Fails =
      (.error "tx2 broadcast failed",
        [.built 1 exTx1, .sent 1 exTx1, .built 2 exTx2]) := by
    norm_num [convertCkptToTwoTxAndSubmit, exSubmitterTx2Fails,
      submitterGetTopTwoUTXOs, exWallet, getTopTwoUTXOs, goInsertionSort,
      goInsertionSortAux, goInsertRev, utxoLess, cexSpendableUTXO,
      exSpendable100, amountToBTC, satoshiPerBitcoin, buildTxWithData,
      exBuildEnvAllOk, newAmount, exTx1, exTx2]
  exact (convertCkptToTwoTxAndSubmit_sequential_no_rollback
      exSubmitterTx2Fails).2.2 exTx1 (by rw [hc]; simp)
    "tx2 broadcast failed" (by rw [hc])

/-- Claim C6: for a Connected event whose block fetch succeeds, the handler
runs `Bootstrap(force=true)` and nothing else when the cache is empty or
the fetched block's previous-block hash differs from the cache tip's hash;
otherwise it adds the block to the cache and forwards it to header
extraction and then checkpoint extraction, each exactly once, in that
order, within the same handling step. -/
theorem handleConnectedBlocks_cases (bh : BlockHeader → ℤ)
    (gb : ℤ → Option (IndexedBlock × BlockHeader))
    (tipRes : Option IndexedBlock) (event : BlockEvent)
    (ib : IndexedBlock) (mh : BlockHeader)
    (hfetch : gb (bh event.header) = some (ib, mh)) :
    (tipRes = none →
      handleConnectedBlocks bh gb tipRes event = [.bootstrap true]) ∧
    (∀ ct, tipRes = some ct → mh.prevBlock ≠ bh ct.header →
      handleConnectedBlocks bh gb tipRes event = [.bootstrap true]) ∧
    (∀ ct, tipRes = some ct → mh.prevBlock = bh ct.header →
      handleConnectedBlocks bh gb tipRes event =
        [.cacheAdd ib, .processHeaders [ib], .processCheckpoints [ib]]) := by
  unfold handleConnectedBlocks
  rw [hfetch]
  refine ⟨?_, ?_, ?_⟩
  · rintro rfl
    rfl
  · rintro ct rfl hne
    simp only []
    rw [if_pos hne]
  · rintro ct rfl heq
    simp only []
    rw [if_neg (not_not_intro heq)]

/-- Witness for C6: a connected block whose previous hash matches the tip
is added and forwarded to both extraction stages in order. -/
theorem handleConnectedBlocks_cases_witness :
    handleConnectedBlocks exBlockHash exGetBlockByHash (some exTipBlock)
      exConnectedEvent =
      [.cacheAdd exNextBlock, .processHeaders [exNextBlock],
       .processCheckpoints [exNextBlock]] :=
  (handleConnectedBlocks_cases exBlockHash exGetBlockByHash (some exTipBlock)
    exConnectedEvent exNextBlock exNextBlock.header rfl).2.2 exTipBlock rfl rfl

/-- Claim C7: for a Disconnected event, the handler runs
`Bootstrap(force=true)` and removes nothing when the cache is empty or the
event's hash differs from the tip's hash; otherwise it removes exactly the
current tip via `RemoveLast`; and if the removal call fails the handler
performs a re-bootstrap and surfaces the failure by panicking rather than
swallowing it. -/
theorem handleDisconnectedBlocks_cases (bh : BlockHeader → ℤ)
    (cache : List IndexedBlock) (event : BlockEvent) :
    (cache = [] →
      handleDisconnectedBlocksSeq bh cache event = ([.bootstrap true], cache)) ∧
    (∀ tip, btcCacheTip cache = some tip → bh event.header ≠ bh tip.header →
      handleDisconnectedBlocksSeq bh cache event = ([.bootstrap true], cache)) ∧
    (∀ tip, btcCacheTip cache = some tip → bh event.header = bh tip.header →
      handleDisconnectedBlocksSeq bh cache event =
        ([.removeLast], cache.dropLast) ∧
      cache.dropLast ++ [tip] = cache) ∧
    (∀ tip e, bh event.header = bh tip.header →
      handleDisconnectedBlocks bh cache (some tip) (.error e) event =
        ([.bootstrap true, .panicAct], cache)) := by
  refine ⟨?_, ?_, ?_, ?_⟩
  · rintro rfl
    rfl
  · intro tip htip hne
    unfold handleDisconnectedBlocksSeq handleDisconnectedBlocks
    rw [htip]
    simp only []
    rw [if_pos hne]
  · intro tip htip heq
    have hne : cache ≠ [] := by
      intro hnil
      rw [hnil] at htip
      simp [btcCacheTip] at htip
    have hrm : btcCacheRemoveLast cache = .ok cache.dropLast := by
      unfold btcCacheRemoveLast
      rw [if_neg (by simpa using hne)]
    have htipLast : cache.getLast hne = tip := by
      have hgl := List.getLast?_eq_getLast cache hne
      rw [btcCacheTip] at htip
      rw [hgl] at htip
      exact Option.some.inj htip
    constructor
    · unfold handleDisconnectedBlocksSeq handleDisconnectedBlocks
      rw [htip, hrm]
      simp only []
      rw [if_neg (not_not_intro heq)]
    · rw [← htipLast]
      exact List.dropLast_append_getLast hne
  · intro tip e heq
    unfold handleDisconnectedBlocks
    simp only []
    rw [if_neg (not_not_intro heq)]

/-- Witness for C7: a disconnect event matching the tip removes exactly the
tip. -/
theorem handleDisconnectedBlocks_cases_witness :
    handleDisconnectedBlocksSeq exBlockHash exCache exDisconnectedEvent =
      ([.removeLast], exCache.dropLast) ∧
    exCache.dropLast ++ [exNextBlock] = exCache :=
  (handleDisconnectedBlocks_cases exBlockHash exCache
    exDisconnectedEvent).2.2.1 exNextBlock rfl rfl

/-- Claim C9: the sealed-checkpoint worker invokes the submission pipeline
on a received checkpoint exactly when its status is `Sealed`; any other
status is ignored with no action performed and the loop continuing. -/
theorem sealedCkptHandlerStep_submit_iff_sealed
    (submitRes : RawCheckpointWithMeta → Except String Unit)
    (c : RawCheckpointWithMeta) :
    (WAction.submitCall c ∈ (sealedCkptHandlerStep submitRes (.ckptMsg c)).1 ↔
      c.Status = CkptStatus.sealed) ∧
    (c.Status ≠ CkptStatus.sealed →
      sealedCkptHandlerStep submitRes (.ckptMsg c) = ([], .continueLoop)) := by
  simp only [sealedCkptHandlerStep]
  by_cases hst : c.Status = CkptStatus.sealed
  · rw [if_pos hst]
    cases submitRes c with
    | ok u =>
      simp only []
      exact ⟨⟨fun _ => hst, fun _ => by simp⟩, fun hne => absurd hst hne⟩
    | error e =>
      simp only []
      exact ⟨⟨fun _ => hst, fun _ => by simp⟩, fun hne => absurd hst hne⟩
  · rw [if_neg hst]
    exact ⟨⟨fun hmem => by simp at hmem, fun hsus => absurd hsus hst⟩,
      fun _ => rfl⟩

/-- Witness for C9: a non-sealed checkpoint is ignored without any action. -/
theorem sealedCkptHandlerStep_submit_iff_sealed_witness :
    sealedCkptHandlerStep exSubmitAlwaysFails (.ckptMsg exCkptAccumulating) =
      ([], .continueLoop) :=
  (sealedCkptHandlerStep_submit_iff_sealed exSubmitAlwaysFails
    exCkptAccumulating).2 (by decide)

/-- Claim C10: a checkpoint message never exits the worker loop, the
submission pipeline is invoked at most once per message (no retry), and a
failed submission of a sealed checkpoint logs the error and continues the
loop. -/
theorem sealedCkptHandlerStep_error_continues
    (submitRes : RawCheckpointWithMeta → Except String Unit)
    (c : RawCheckpointWithMeta) :
    ((sealedCkptHandlerStep submitRes (.ckptMsg c)).2 = .continueLoop) ∧
    ((sealedCkptHandlerStep submitRes (.ckptMsg c)).1.count
      (WAction.submitCall c) ≤ 1) ∧
    (∀ e, submitRes c = .error e → c.Status = CkptStatus.sealed →
      sealedCkptHandlerStep submitRes (.ckptMsg c) =
        ([.logInfoFound c.Ckpt.EpochNum, .submitCall c,
          .logSubmitErr c.Ckpt.EpochNum], .continueLoop)) := by
  simp only [sealedCkptHandlerStep]
  by_cases hst : c.Status = CkptStatus.sealed
  · rw [if_pos hst]
    cases hsr : submitRes c with
    | ok u =>
      refine ⟨rfl, ?_, ?_⟩
      · simp [List.count_cons]
      · intro e he hst2
        simp at he
    | error e' =>
      refine ⟨rfl, ?_, ?_⟩
      · simp [List.count_cons]
      · intro e he hst2
        rfl
  · rw [if_neg hst]
    exact ⟨rfl, by simp, fun e he hst2 => absurd hst2 hst⟩

/-- Witness for C10: a failing submission of a sealed checkpoint logs the
error and the loop continues. -/
theorem sealedCkptHandlerStep_error_continues_witness :
    sealedCkptHandlerStep exSubmitAlwaysFails (.ckptMsg exCkptSealed) =
      ([.logInfoFound 7, .submitCall exCkptSealed, .logSubmitErr 7],
       .continueLoop) :=
  (sealedCkptHandlerStep_error_continues exSubmitAlwaysFails exCkptSealed).2.2
    "submission failed" rfl rfl
